import Mathlib

/-!
Shallow embedding of the real-time chat subsystem of the
auto_sync_moto_business_tools backend (src/chatapp): the data model
(models.py), the cache-invalidation helpers, the REST views (views.py),
the serializer validation (serializers.py) and the websocket consumer
(consumers.py).  Django rows become Lean structures, the shared cache
becomes an association list from a key type mirroring the cache-key
format strings, and each endpoint becomes a state-passing function.
-/

namespace ChatSpec

/-- A chat participant as seen by the chat subsystem: the custom user
model exposes a numeric user_id plus the is_staff / is_active flags
consulted by permissions and the consumer handshake. -/
structure UserRec where
  userId : Nat
  isStaff : Bool
  isActive : Bool
  deriving DecidableEq, Repr

/-- One row of chatapp.models.ChatRoom: id, the regular participant
(user), the staff participant (staff) and the auto_now updated_at
timestamp (modelled as a Nat instant; created_at is not consulted by
any code path we verify). -/
structure Room where
  id : Nat
  userId : Nat
  staffId : Nat
  updatedAt : Nat
  deriving DecidableEq, Repr

/-- One row of chatapp.models.Message together with its read_by
many-to-many set.  The attachment is modelled by its byte size (the
only property the code reads); text is the optional TextField. -/
structure Message where
  id : Nat
  roomId : Nat
  senderId : Nat
  text : Option String
  attachment : Option Nat
  readBy : List Nat
  createdAt : Nat
  deriving DecidableEq, Repr

/-- Cache keys.  The source builds keys by string interpolation; the
formats are pairwise non-overlapping and injective in their numeric
arguments, so an inductive type is a faithful rendering.
Constructors mirror, in order:
chat:room:R:unread:U, chat:total_unread:U, chat:room:R:messages:page:P,
chat:rooms:user:U (deleted by the invalidation paths),
chat:rooms:user:U:page:P (written by ListChatRoomsAPIView),
chat:staff_list:page:P. -/
inductive CacheKey where
  | roomUnread (roomId userId : Nat)
  | totalUnread (userId : Nat)
  | roomMessagesPage (roomId page : Nat)
  | roomsUser (userId : Nat)
  | roomsUserPage (userId page : Nat)
  | staffListPage (page : Nat)
  deriving DecidableEq, Repr

/-- A serialized paginated response as cached by the list endpoints:
count, next/previous page numbers and the results.  Results are the
ids of the serialized rows, in response order (the per-row serializer
fields not consulted by any claim are dropped). -/
structure PageResp where
  count : Nat
  next : Option Nat
  previous : Option Nat
  results : List Nat
  deriving DecidableEq, Repr

/-- Values stored in the shared cache: unread counters (ints) and
serialized pages. -/
inductive CacheVal where
  | count (n : Nat)
  | page (resp : PageResp)
  deriving DecidableEq, Repr

/-- The shared cache, as an association list (django.core.cache).
TTL expiry is modelled as a spontaneous deletion step in the
operational semantics (Op.expire), not as per-entry clocks. -/
abbrev Cache : Type := List (CacheKey × CacheVal)

def cacheGet (c : Cache) (k : CacheKey) : Option CacheVal :=
  match c with
  | [] => none
  | (k0, v0) :: rest => if k0 = k then some v0 else cacheGet rest k

def cacheDelete (c : Cache) (k : CacheKey) : Cache :=
  c.filter (fun p => decide (p.1 ≠ k))

def cacheSet (c : Cache) (k : CacheKey) (v : CacheVal) : Cache :=
  (k, v) :: cacheDelete c k

def cacheDeleteList (c : Cache) (ks : List CacheKey) : Cache :=
  ks.foldl cacheDelete c

theorem cacheGet_delete (c : Cache) (k k' : CacheKey) :
    cacheGet (cacheDelete c k) k' = if k' = k then none else cacheGet c k' := by
  induction c with
  | nil => simp [cacheDelete, cacheGet]
  | cons p rest ih =>
    rcases p with ⟨k0, v0⟩
    by_cases h1 : k0 = k
    · have hdrop : cacheDelete ((k0, v0) :: rest) k = cacheDelete rest k := by
        simp [cacheDelete, List.filter, h1]
      rw [hdrop, ih]
      by_cases h2 : k' = k
      · simp [h2]
      · have h3 : ¬ k0 = k' := by
          rw [h1]; intro hh; exact h2 hh.symm
        simp [cacheGet, h2, h3]
    · have hkeep : cacheDelete ((k0, v0) :: rest) k = (k0, v0) :: cacheDelete rest k := by
        simp [cacheDelete, List.filter, h1]
      rw [hkeep]
      by_cases h2 : k0 = k'
      · have h4 : ¬ k' = k := by
          subst h2; intro hh; exact h1 hh
        simp [cacheGet, h2, h4]
      · simp [cacheGet, h2, ih]

theorem cacheGet_set (c : Cache) (k k' : CacheKey) (v : CacheVal) :
    cacheGet (cacheSet c k v) k' = if k' = k then some v else cacheGet c k' := by
  by_cases h : k' = k
  · simp [cacheSet, cacheGet, h]
  · have h2 : ¬ k = k' := fun hh => h hh.symm
    simp [cacheSet, cacheGet, h, h2, cacheGet_delete]

theorem cacheGet_deleteList (c : Cache) (ks : List CacheKey) (k' : CacheKey) :
    cacheGet (cacheDeleteList c ks) k' = if k' ∈ ks then none else cacheGet c k' := by
  induction ks generalizing c with
  | nil => simp [cacheDeleteList]
  | cons k rest ih =>
    simp only [cacheDeleteList, List.foldl] at ih ⊢
    rw [ih (cacheDelete c k), cacheGet_delete]
    by_cases h1 : k' ∈ rest <;> by_cases h2 : k' = k <;> simp [h1, h2]

/-- The persistent state the chat subsystem touches: the ChatRoom
rows, the Message rows (in insertion order, which for AutoField ids
plus auto_now_add timestamps coincides with ascending created_at and
ascending id), the shared cache, and the next AutoField message id. -/
structure ChatState where
  rooms : List Room
  messages : List Message
  cache : Cache
  nextId : Nat
  deriving DecidableEq, Repr

/-- ChatRoom.objects.get(id=room_id), returning none on DoesNotExist. -/
def findRoom (st : ChatState) (roomId : Nat) : Option Room :=
  st.rooms.find? (fun r => r.id == roomId)

/-- Message.objects.get(pk=message_id), returning none on DoesNotExist. -/
def findMessage (st : ChatState) (msgId : Nat) : Option Message :=
  st.messages.find? (fun m => m.id == msgId)

/-- The filter of ChatRoom.get_unread_count and ChatRoom.mark_as_read:
messages of this room, excluding those read by the user and those the
user sent (messages.exclude(read_by=u).exclude(sender=u)). -/
def unreadPred (roomId u : Nat) (m : Message) : Bool :=
  m.roomId == roomId && m.senderId != u && !(m.readBy.contains u)

/-- The database count behind get_unread_count on a cache miss. -/
def trueUnread (msgs : List Message) (roomId u : Nat) : Nat :=
  (msgs.filter (unreadPred roomId u)).length

/-- The message-page keys deleted by invalidate_room_cache:
for page in range(1, 20), i.e. pages 1 through 19. -/
def msgPageKeys (roomId : Nat) : List CacheKey :=
  (List.range 19).map (fun i => CacheKey.roomMessagesPage roomId (i + 1))

/-- The cache left by models.invalidate_room_cache: the message-page
keys of the room are deleted and, when the room row exists, the
chat:rooms:user:U keys of its two participants (note: NOT the
chat:rooms:user:U:page:P keys the room list endpoint actually writes). -/
def invalidateRoomCacheVal (st : ChatState) (roomId : Nat) : Cache :=
  let c1 := cacheDeleteList st.cache (msgPageKeys roomId)
  match findRoom st roomId with
  | some r => cacheDeleteList c1 [CacheKey.roomsUser r.userId, CacheKey.roomsUser r.staffId]
  | none => c1

/-- models.invalidate_room_cache (state form). -/
def invalidate_room_cache (st : ChatState) (roomId : Nat) : ChatState :=
  { st with cache := invalidateRoomCacheVal st roomId }

/-- The cache left by models.invalidate_unread_cache: with an explicit
user id, the per-room unread key and total of that user are deleted;
otherwise the per-room unread keys and totals of both participants (when the
room row exists). -/
def invalidateUnreadCacheVal (st : ChatState) (roomId : Nat) (userId : Option Nat) : Cache :=
  match userId with
  | some uid =>
      cacheDeleteList st.cache [CacheKey.roomUnread roomId uid, CacheKey.totalUnread uid]
  | none =>
      match findRoom st roomId with
      | some r =>
          cacheDeleteList st.cache
            [CacheKey.roomUnread roomId r.userId, CacheKey.roomUnread roomId r.staffId,
             CacheKey.totalUnread r.userId, CacheKey.totalUnread r.staffId]
      | none => st.cache

/-- models.invalidate_unread_cache (state form). -/
def invalidate_unread_cache (st : ChatState) (roomId : Nat) (userId : Option Nat) : ChatState :=
  { st with cache := invalidateUnreadCacheVal st roomId userId }

/-- ChatRoom.get_unread_count(for_user): cache-backed unread counter.
On a hit returns the cached value unchanged; on a miss counts the
unread messages and stores the count (the 60s timeout is represented
by Op.expire steps).  A cached value of a non-count shape cannot occur
at this key and is treated as the miss branch. -/
def get_unread_count (st : ChatState) (room : Room) (u : Nat) : Nat × ChatState :=
  match cacheGet st.cache (CacheKey.roomUnread room.id u) with
  | some (CacheVal.count n) => (n, st)
  | _ =>
      let n := trueUnread st.messages room.id u
      (n, { st with cache := cacheSet st.cache (CacheKey.roomUnread room.id u) (CacheVal.count n) })

/-- The per-message effect of ChatRoom.mark_as_read: messages matching
the unread filter gain the reader in read_by. -/
def markMsg (u roomId : Nat) (m : Message) : Message :=
  if unreadPred roomId u m then { m with readBy := m.readBy ++ [u] } else m

/-- ChatRoom.mark_as_read(for_user): adds the user to read_by of every
unread message of the room, then invalidates the room cache and the
unread cache for this user. -/
def mark_as_read (st : ChatState) (room : Room) (u : Nat) : ChatState :=
  let st1 := { st with messages := st.messages.map (markMsg u room.id) }
  let st2 := invalidate_room_cache st1 room.id
  invalidate_unread_cache st2 room.id (some u)

/-- Message.save on a new row plus the post_save signal message_saved:
the row is inserted with the sender auto-added to read_by (and the
attachment kind inferred, not consulted by any claim), then the signal
runs invalidate_room_cache and invalidate_unread_cache for the room. -/
def createMessage (st : ChatState) (roomId senderId : Nat) (text : Option String)
    (att : Option Nat) (now : Nat) : Message × ChatState :=
  let m : Message :=
    { id := st.nextId, roomId := roomId, senderId := senderId, text := text,
      attachment := att, readBy := [senderId], createdAt := now }
  let st1 := { st with messages := st.messages ++ [m], nextId := st.nextId + 1 }
  let st2 := invalidate_room_cache st1 roomId
  let st3 := invalidate_unread_cache st2 roomId none
  (m, st3)

/-- room.save(update_fields=[updated_at]) in SendMessageAPIView: the
auto_now field is set to the current instant, and the post_save signal
room_saved deletes the chat:rooms:user:U keys of both participants. -/
def touchRoomCacheVal (st : ChatState) (roomId : Nat) : Cache :=
  match findRoom st roomId with
  | some r => cacheDeleteList st.cache [CacheKey.roomsUser r.userId, CacheKey.roomsUser r.staffId]
  | none => st.cache

def touchRoom (st : ChatState) (roomId now : Nat) : ChatState :=
  { st with
    rooms := st.rooms.map (fun r => if r.id == roomId then { r with updatedAt := now } else r),
    cache := touchRoomCacheVal st roomId }

def emptyStr : String := ""

/-- Python str.strip (whitespace from both ends), written structurally
over the char list so that it evaluates. -/
def pyStrip (s : String) : String :=
  String.mk (((s.data.dropWhile Char.isWhitespace).reverse.dropWhile
    Char.isWhitespace).reverse)

/-- Python truthiness of the optional text value (None and the empty
string are falsy, anything else including whitespace is truthy). -/
def textTruthy : Option String → Bool
  | none => false
  | some s => !(s == emptyStr)

/-- MessageSerializer.validate as written in the source
(serializers.py lines 50 to 57): requires text or attachment, and
rejects attachments above 15 MB.  Only its text half can ever execute
over REST, because the attachment never reaches it: see
validateMessage. -/
def messageSerializerValidate (text : Option String) (att : Option Nat) : Bool :=
  (textTruthy text || att.isSome) &&
    (match att with
     | some sz => decide (sz ≤ 15 * 1024 * 1024)
     | none => true)

/-- The validation that actually runs for a REST send: attachment is
not declared in MessageSerializer.Meta.fields (only the read-only
attachment_url and attachment_type are), so the framework never passes
the upload into validate(); data.get of the attachment is always None,
only the text check is live, and the 15 MB branch is dead code. -/
def validateMessage (text : Option String) : Bool :=
  messageSerializerValidate text none

/-- django.core.paginator.Paginator.num_pages (allow_empty_first_page,
so an empty object list still has one page). -/
def numPages (count pageSize : Nat) : Nat :=
  if count = 0 then 1 else (count + pageSize - 1) / pageSize

/-- The slice of ids served by Paginator.page. -/
def pageSlice (l : List Nat) (page pageSize : Nat) : List Nat :=
  (l.drop ((page - 1) * pageSize)).take pageSize

/-- The inline permission check repeated by the room-scoped views:
user.is_staff or room.user_id == user.user_id or
room.staff_id == user.user_id. -/
def isParticipantOrStaffRoom (user : UserRec) (r : Room) : Bool :=
  user.isStaff || r.userId == user.userId || r.staffId == user.userId

/-- Message.objects.filter(room=room).order_by(-created_at): messages
of the room newest first (insertion order is ascending created_at with
id tiebreak, so newest-first is the reverse). -/
def roomMessagesDesc (st : ChatState) (roomId : Nat) : List Message :=
  (st.messages.filter (fun m => m.roomId == roomId)).reverse

inductive ListResult where
  | notFound
  | forbidden
  | ok (resp : PageResp)
  deriving DecidableEq, Repr

/-- ListMessagesAPIView.get: room lookup (404), inline permission
check (403), then the chat:room:R:messages:page:P cached response; on
a miss the newest-first page is computed, cached (30s for page 1, 300s
otherwise; the EmptyPage branch also caches) and returned. -/
def list_messages (st : ChatState) (user : UserRec) (roomId page pageSize0 : Nat) :
    ListResult × ChatState :=
  let pageSize := min pageSize0 100
  match findRoom st roomId with
  | none => (.notFound, st)
  | some r =>
    if !(isParticipantOrStaffRoom user r) then (.forbidden, st)
    else
      match cacheGet st.cache (CacheKey.roomMessagesPage roomId page) with
      | some (CacheVal.page resp) => (.ok resp, st)
      | _ =>
        let ordered := (roomMessagesDesc st roomId).map (fun m => m.id)
        let count := ordered.length
        if page < 1 || numPages count pageSize < page then
          let resp : PageResp := { count := count, next := none, previous := none, results := [] }
          let c1 := cacheSet st.cache (CacheKey.roomMessagesPage roomId page) (CacheVal.page resp)
          (.ok resp, { st with cache := c1 })
        else
          let results := pageSlice ordered page pageSize
          let next := if page < numPages count pageSize then some (page + 1) else none
          let previous := if 1 < page then some (page - 1) else none
          let resp : PageResp :=
            { count := count, next := next, previous := previous, results := results }
          let c1 := cacheSet st.cache (CacheKey.roomMessagesPage roomId page) (CacheVal.page resp)
          (.ok resp, { st with cache := c1 })

/-- Stable insertion of a room into a list sorted by descending
updated_at (order_by(-updated_at)). -/
def insertByUpdatedDesc (r : Room) : List Room → List Room
  | [] => [r]
  | x :: xs => if x.updatedAt < r.updatedAt then r :: x :: xs else x :: insertByUpdatedDesc r xs

def sortByUpdatedDesc : List Room → List Room
  | [] => []
  | x :: xs => insertByUpdatedDesc x (sortByUpdatedDesc xs)

/-- ChatRoom.objects.filter(Q(user=u)|Q(staff=u)).order_by(-updated_at). -/
def participantRooms (st : ChatState) (uid : Nat) : List Room :=
  sortByUpdatedDesc (st.rooms.filter (fun r => r.userId == uid || r.staffId == uid))

/-- Serializing a page of rooms with ChatRoomSerializer evaluates
get_unread_count for the requesting user on every room of the page;
this is the resulting cache-state effect. -/
def serializeRoomsState (st : ChatState) (u : Nat) (rooms : List Room) : ChatState :=
  rooms.foldl (fun s r => (get_unread_count s r u).2) st

/-- ListChatRoomsAPIView.get: page 1 is served from (and stored to)
the chat:rooms:user:U:page:1 key; other pages are computed directly.
The EmptyPage branch serializes an empty list. -/
def list_rooms (st : ChatState) (user : UserRec) (page pageSize0 : Nat) :
    PageResp × ChatState :=
  let pageSize := min pageSize0 100
  let cached := if page == 1 then cacheGet st.cache (CacheKey.roomsUserPage user.userId 1) else none
  match cached with
  | some (CacheVal.page resp) => (resp, st)
  | _ =>
    let ordered := participantRooms st user.userId
    let count := ordered.length
    if page < 1 || numPages count pageSize < page then
      let resp : PageResp := { count := count, next := none, previous := none, results := [] }
      if page == 1 then
        let c1 := cacheSet st.cache (CacheKey.roomsUserPage user.userId 1) (CacheVal.page resp)
        (resp, { st with cache := c1 })
      else (resp, st)
    else
      let pageRooms := (ordered.drop ((page - 1) * pageSize)).take pageSize
      let st1 := serializeRoomsState st user.userId pageRooms
      let next := if page < numPages count pageSize then some (page + 1) else none
      let previous := if 1 < page then some (page - 1) else none
      let resp : PageResp :=
        { count := count, next := next, previous := previous,
          results := pageRooms.map (fun r => r.id) }
      if page == 1 then
        let c1 := cacheSet st1.cache (CacheKey.roomsUserPage user.userId 1) (CacheVal.page resp)
        (resp, { st1 with cache := c1 })
      else (resp, st1)

/-- Events published on the room broadcast group (channel layer).
The constructor names mirror the type fields of the group_send calls:
chat.message, messages.read, user.typing, user.online, user.offline,
message.deleted. -/
inductive GroupEvent where
  | chatMessage (msgId roomId senderId : Nat)
  | messagesRead (userId roomId : Nat)
  | userTyping (userId : Nat) (isTyping : Bool)
  | userOnline (userId : Nat)
  | userOffline (userId : Nat)
  | messageDeleted (msgId roomId : Nat)
  deriving DecidableEq, Repr

/-- Wire messages a connected client can receive from its consumer. -/
inductive ClientEvent where
  | message (msgId : Nat)
  | readReceipt (userId roomId : Nat)
  | typing (userId : Nat) (isTyping : Bool)
  | online (userId : Nat)
  | offline (userId : Nat)
  deriving DecidableEq, Repr

/-- Delivery of a group event to one connected client: channels
dispatches a group event of type a.b to the consumer method a_b.
ChatConsumer (consumers.py lines 236 to 275) defines exactly
chat_message, messages_read, user_typing, user_online and
user_offline; typing/online/offline suppress the self echo.  There is
no message_deleted method, so a message.deleted group event finds no
handler (channels raises ValueError) and nothing reaches the client. -/
def chatConsumerDispatch (selfUserId : Nat) : GroupEvent → Option ClientEvent
  | .chatMessage mid _ _ => some (.message mid)
  | .messagesRead u r => some (.readReceipt u r)
  | .userTyping u t => if u == selfUserId then none else some (.typing u t)
  | .userOnline u => if u == selfUserId then none else some (.online u)
  | .userOffline u => if u == selfUserId then none else some (.offline u)
  | .messageDeleted _ _ => none

inductive SendResult where
  | badRequest
  | notFound
  | forbidden
  | created (m : Message)
  deriving DecidableEq, Repr

/-- SendMessageAPIView.post: 400 on a falsy room field, 404 on a
missing room, 403 for non-participant non-staff, 400 on serializer
validation failure; otherwise the message is created (Message.save
plus signals), the room is touched, the unread caches invalidated and
a chat.message event published.  The att argument is the multipart
upload of the request: it is dropped by the serializer (attachment is
not in MessageSerializer.Meta.fields), so it is neither validated nor
persisted — validation sees only the text and the saved row has no
attachment. -/
def rest_send_message (st : ChatState) (user : UserRec) (roomIdOpt : Option Nat)
    (text : Option String) (att : Option Nat) (now : Nat) :
    SendResult × List GroupEvent × ChatState :=
  match roomIdOpt with
  | none => (.badRequest, [], st)
  | some roomId =>
    match findRoom st roomId with
    | none => (.notFound, [], st)
    | some r =>
      if !(isParticipantOrStaffRoom user r) then (.forbidden, [], st)
      else if !(validateMessage text) then (.badRequest, [], st)
      else
        let p := createMessage st roomId user.userId text none now
        let st2 := touchRoom p.2 roomId now
        let st3 := invalidate_unread_cache st2 roomId none
        (.created p.1, [GroupEvent.chatMessage p.1.id roomId user.userId], st3)

inductive MarkReadResult where
  | badRequest
  | notFound
  | forbidden
  | ok
  deriving DecidableEq, Repr

/-- MarkMessagesReadAPIView.post: 400 on a falsy room_id, 404 on a
missing room, 403 for non-participant non-staff; otherwise
mark_as_read runs and a messages.read event is published. -/
def rest_mark_read (st : ChatState) (user : UserRec) (roomIdOpt : Option Nat) :
    MarkReadResult × List GroupEvent × ChatState :=
  match roomIdOpt with
  | none => (.badRequest, [], st)
  | some roomId =>
    match findRoom st roomId with
    | none => (.notFound, [], st)
    | some r =>
      if !(isParticipantOrStaffRoom user r) then (.forbidden, [], st)
      else (.ok, [GroupEvent.messagesRead user.userId roomId], mark_as_read st r user.userId)

inductive DeleteResult where
  | notFound
  | forbidden
  | ok
  deriving DecidableEq, Repr

/-- DeleteMessageAPIView.delete: 404 on a missing message, 403 unless
the requester is the sender; otherwise the row is deleted (post_delete
signal invalidates room and unread caches) and a message.deleted group
event is published. -/
def performDelete (st : ChatState) (m : Message) (msgId : Nat) : ChatState :=
  let st1 := { st with messages := st.messages.filter (fun x => x.id != msgId) }
  let st2 := invalidate_room_cache st1 m.roomId
  invalidate_unread_cache st2 m.roomId none

def delete_message (st : ChatState) (user : UserRec) (msgId : Nat) :
    DeleteResult × List GroupEvent × ChatState :=
  match findMessage st msgId with
  | none => (.notFound, [], st)
  | some m =>
    if m.senderId != user.userId then (.forbidden, [], st)
    else (.ok, [GroupEvent.messageDeleted msgId m.roomId], performDelete st m msgId)

inductive CountResult where
  | notFound
  | forbidden
  | ok (n : Nat)
  deriving DecidableEq, Repr

/-- RoomUnreadCountAPIView.get: 404 on a missing room, 403 for
non-participant non-staff; otherwise the cached unread counter. -/
def room_unread_endpoint (st : ChatState) (user : UserRec) (roomId : Nat) :
    CountResult × ChatState :=
  match findRoom st roomId with
  | none => (.notFound, st)
  | some r =>
    if !(isParticipantOrStaffRoom user r) then (.forbidden, st)
    else
      let p := get_unread_count st r user.userId
      (.ok p.1, p.2)

/-- UnreadCountROOMAPIView.get: the chat:total_unread:U key, rebuilt
on a miss by summing get_unread_count over all of the rooms where the
caller is a participant (each summand itself cache-backed). -/
def total_unread_endpoint (st : ChatState) (user : UserRec) : Nat × ChatState :=
  match cacheGet st.cache (CacheKey.totalUnread user.userId) with
  | some (CacheVal.count n) => (n, st)
  | _ =>
    let rooms := st.rooms.filter (fun r => r.userId == user.userId || r.staffId == user.userId)
    let p := rooms.foldl (fun (p : Nat × ChatState) r =>
        let q := get_unread_count p.2 r user.userId
        (p.1 + q.1, q.2)) (0, st)
    let c1 := cacheSet p.2.cache (CacheKey.totalUnread user.userId) (CacheVal.count p.1)
    (p.1, { p.2 with cache := c1 })

inductive ConnectResult where
  | close (code : Nat)
  | accepted (groupRoomId : Nat) (onlineEvent : GroupEvent)
  deriving DecidableEq, Repr

/-- ChatConsumer.connect: missing token closes 4001; a token that does
not resolve to a user, or an inactive user, closes 4003; a missing
room closes 4004; a non-participant non-staff user closes 4003;
otherwise the connection joins the chat_R group, is accepted, and a
user.online event is published.  The auth argument embeds
get_user_from_token (JWT validation as a black box). -/
def ws_connect (auth : String → Option UserRec) (st : ChatState)
    (token : Option String) (roomId : Nat) : ConnectResult :=
  match token with
  | none => .close 4001
  | some t =>
    match auth t with
    | none => .close 4003
    | some user =>
      if !user.isActive then .close 4003
      else
        match findRoom st roomId with
        | none => .close 4004
        | some room =>
          if !(user.isStaff || room.userId == user.userId || room.staffId == user.userId) then
            .close 4003
          else .accepted roomId (GroupEvent.userOnline user.userId)

/-- consumers.save_message: Message.objects.create (which runs
Message.save, auto-adding the sender to read_by, and the post_save
invalidation signal), then a redundant read_by.add(sender) (a set
insert of an element already present, hence a no-op), then
ChatRoom.objects.filter(id=room_id).update() WITH NO FIELD VALUES,
which leaves the row, including its auto_now updated_at, unchanged,
then invalidate_room_cache again.  A missing room makes the insert
violate the FK constraint and nothing persists. -/
def save_message (st : ChatState) (roomId senderId : Nat) (text : Option String) (now : Nat) :
    Option Message × ChatState :=
  match findRoom st roomId with
  | none => (none, st)
  | some _ =>
    let p := createMessage st roomId senderId text none now
    let st2 := invalidate_room_cache p.2 roomId
    (some p.1, st2)

/-- consumers.mark_room_as_read: mark_as_read when the room exists
(returning True), otherwise False with no state change. -/
def mark_room_as_read (st : ChatState) (roomId u : Nat) : Bool × ChatState :=
  match findRoom st roomId with
  | some r => (true, mark_as_read st r u)
  | none => (false, st)

/-- Inbound websocket actions (receive_json envelopes). -/
inductive WsIncoming where
  | send (text : Option String)
  | markRead
  | typing (isTyping : Bool)
  | unknown
  deriving DecidableEq, Repr

/-- Effects of one receive_json call: an error payload sent to this
client only (the connection stays open; receive_json never closes),
or a publish on the room group. -/
inductive WsEffect where
  | errorToClient
  | publish (e : GroupEvent)
  deriving DecidableEq, Repr

/-- ChatConsumer.receive_json on a joined connection for room roomId:
send strips the text (None becomes the empty string) and reports an
error event when empty, otherwise saves and broadcasts; mark_read
broadcasts messages.read only when mark_room_as_read returned True;
typing broadcasts user.typing; anything else is an error event. -/
def ws_receive_json (st : ChatState) (selfUser : UserRec) (roomId : Nat)
    (msg : WsIncoming) (now : Nat) : List WsEffect × ChatState :=
  match msg with
  | .send text =>
    let stripped := pyStrip (text.getD emptyStr)
    if stripped == emptyStr then ([WsEffect.errorToClient], st)
    else
      match save_message st roomId selfUser.userId (some stripped) now with
      | (some m, st1) =>
          ([WsEffect.publish (GroupEvent.chatMessage m.id m.roomId m.senderId)], st1)
      | (none, st1) => ([], st1)
  | .markRead =>
    let p := mark_room_as_read st roomId selfUser.userId
    if p.1 then ([WsEffect.publish (GroupEvent.messagesRead selfUser.userId roomId)], p.2)
    else ([], p.2)
  | .typing t => ([WsEffect.publish (GroupEvent.userTyping selfUser.userId t)], st)
  | .unknown => ([WsEffect.errorToClient], st)

/-- One externally triggered step of the chat subsystem: a websocket
action on a joined connection, a REST call, or TTL expiry of a cache
entry. -/
inductive Op where
  | wsSend (selfUser : UserRec) (roomId : Nat) (text : Option String) (now : Nat)
  | wsMarkRead (selfUser : UserRec) (roomId : Nat)
  | restSend (user : UserRec) (roomIdOpt : Option Nat) (text : Option String)
      (att : Option Nat) (now : Nat)
  | restMarkRead (user : UserRec) (roomIdOpt : Option Nat)
  | restDelete (user : UserRec) (msgId : Nat)
  | listMsgs (user : UserRec) (roomId page pageSize : Nat)
  | listRoomsOp (user : UserRec) (page pageSize : Nat)
  | roomUnreadOp (user : UserRec) (roomId : Nat)
  | totalUnreadOp (user : UserRec)
  | expire (k : CacheKey)

/-- The state effect of one step. -/
def applyOp (st : ChatState) : Op → ChatState
  | .wsSend u roomId text now => (ws_receive_json st u roomId (WsIncoming.send text) now).2
  | .wsMarkRead u roomId => (ws_receive_json st u roomId WsIncoming.markRead 0).2
  | .restSend u rid text att now => (rest_send_message st u rid text att now).2.2
  | .restMarkRead u rid => (rest_mark_read st u rid).2.2
  | .restDelete u mid => (delete_message st u mid).2.2
  | .listMsgs u rid page ps => (list_messages st u rid page ps).2
  | .listRoomsOp u page ps => (list_rooms st u page ps).2
  | .roomUnreadOp u rid => (room_unread_endpoint st u rid).2
  | .totalUnreadOp u => (total_unread_endpoint st u).2
  | .expire k => { st with cache := cacheDelete st.cache k }

/-- Well-formedness of the relational store: room ids are unique
(AutoField primary keys), message ids are unique and below the next
AutoField value. -/
def WFState (st : ChatState) : Prop :=
  (st.rooms.map Room.id).Nodup ∧ (st.messages.map Message.id).Nodup ∧
    ∀ m ∈ st.messages, m.id < st.nextId

/-- States the chat subsystem can reach: any well-formed store with an
empty cache (cold start; the cache is never authoritative), followed
by any sequence of operations. -/
inductive Reachable : ChatState → Prop
  | init (st : ChatState) (hwf : WFState st) (hc : st.cache = []) : Reachable st
  | step (st : ChatState) (op : Op) (h : Reachable st) : Reachable (applyOp st op)

/-- Cache coherence of the per-room unread counters, for the two
participants of each room: a cached counter, when present, is the
true database count. -/
def CoherentC (rooms : List Room) (msgs : List Message) (cache : Cache) : Prop :=
  ∀ r ∈ rooms, ∀ u, (u = r.userId ∨ u = r.staffId) →
    ∀ v, cacheGet cache (CacheKey.roomUnread r.id u) = some v →
      v = CacheVal.count (trueUnread msgs r.id u)

def Coherent (st : ChatState) : Prop :=
  CoherentC st.rooms st.messages st.cache

/-- c' is obtained from c by deletions only. -/
def SubCache (c' c : Cache) : Prop :=
  ∀ k v, cacheGet c' k = some v → cacheGet c k = some v

theorem subCache_refl (c : Cache) : SubCache c c :=
  fun _ _ h => h

theorem subCache_trans {c1 c2 c3 : Cache} (h1 : SubCache c1 c2) (h2 : SubCache c2 c3) :
    SubCache c1 c3 :=
  fun k v h => h2 k v (h1 k v h)

theorem subCache_delete (c : Cache) (k : CacheKey) : SubCache (cacheDelete c k) c := by
  intro k' v h
  rw [cacheGet_delete] at h
  by_cases hk : k' = k
  · simp [hk] at h
  · simpa [hk] using h

theorem subCache_deleteList (c : Cache) (ks : List CacheKey) :
    SubCache (cacheDeleteList c ks) c := by
  intro k' v h
  rw [cacheGet_deleteList] at h
  by_cases hk : k' ∈ ks
  · simp [hk] at h
  · simpa [hk] using h

theorem cacheGet_deleteList_mem (c : Cache) (ks : List CacheKey) (k : CacheKey) (h : k ∈ ks) :
    cacheGet (cacheDeleteList c ks) k = none := by
  rw [cacheGet_deleteList]
  simp [h]

theorem coherentC_subCache {rooms : List Room} {msgs : List Message} {c c' : Cache}
    (h : CoherentC rooms msgs c) (hs : SubCache c' c) : CoherentC rooms msgs c' :=
  fun r hr u hu v hv => h r hr u hu v (hs _ v hv)

theorem mem_key_unique {α : Type} (key : α → Nat) {l : List α}
    (h : (l.map key).Nodup) {x y : α} (hx : x ∈ l) (hy : y ∈ l) (hk : key x = key y) :
    x = y := by
  induction l with
  | nil => cases hx
  | cons a t ih =>
    rw [List.map_cons, List.nodup_cons] at h
    rcases List.mem_cons.mp hx with rfl | hx2
    · rcases List.mem_cons.mp hy with rfl | hy2
      · rfl
      · exfalso
        apply h.1
        rw [hk]
        exact List.mem_map_of_mem key hy2
    · rcases List.mem_cons.mp hy with rfl | hy2
      · exfalso
        apply h.1
        rw [← hk]
        exact List.mem_map_of_mem key hx2
      · exact ih h.2 hx2 hy2

theorem find_key_eq {α : Type} (key : α → Nat) {l : List α}
    (h : (l.map key).Nodup) {x : α} (hx : x ∈ l) :
    l.find? (fun y => key y == key x) = some x := by
  induction l with
  | nil => cases hx
  | cons a t ih =>
    rw [List.map_cons, List.nodup_cons] at h
    rcases List.mem_cons.mp hx with rfl | hx2
    · simp [List.find?]
    · have hne : ¬ (key a == key x) = true := by
        rw [beq_iff_eq]
        intro hb
        apply h.1
        rw [hb]
        exact List.mem_map_of_mem key hx2
      have step : List.find? (fun y => key y == key x) (a :: t) =
          List.find? (fun y => key y == key x) t :=
        List.find?_cons_of_neg t hne
      rw [step]
      exact ih h.2 hx2

theorem findRoom_mem (st : ChatState) (h : (st.rooms.map Room.id).Nodup)
    {r : Room} (hr : r ∈ st.rooms) : findRoom st r.id = some r :=
  find_key_eq Room.id h hr

theorem findMessage_mem (st : ChatState) {mid : Nat} {m : Message}
    (h : findMessage st mid = some m) : m ∈ st.messages ∧ m.id = mid := by
  unfold findMessage at h
  refine ⟨List.mem_of_find?_eq_some h, ?_⟩
  have := List.find?_some h
  simpa using this

theorem trueUnread_append (msgs : List Message) (m : Message) (rid u : Nat) :
    trueUnread (msgs ++ [m]) rid u =
      trueUnread msgs rid u + (if unreadPred rid u m then 1 else 0) := by
  unfold trueUnread
  rw [List.filter_append, List.length_append]
  by_cases h : unreadPred rid u m <;> simp [List.filter, h]

theorem trueUnread_append_other (msgs : List Message) (m : Message) (rid u : Nat)
    (h : m.roomId ≠ rid) :
    trueUnread (msgs ++ [m]) rid u = trueUnread msgs rid u := by
  rw [trueUnread_append]
  have hp : unreadPred rid u m = false := by
    unfold unreadPred
    simp [h]
  simp [hp]

theorem markMsg_id (u R : Nat) (m : Message) : (markMsg u R m).id = m.id := by
  unfold markMsg
  by_cases h : unreadPred R u m <;> simp [h]

theorem unreadPred_markMsg (rid u' u R : Nat) (m : Message) (h : rid ≠ R ∨ u' ≠ u) :
    unreadPred rid u' (markMsg u R m) = unreadPred rid u' m := by
  unfold markMsg
  by_cases hm : unreadPred R u m
  · rw [if_pos hm]
    have hroom : m.roomId = R := by
      unfold unreadPred at hm
      have := (Bool.and_eq_true _ _).mp hm
      have := (Bool.and_eq_true _ _).mp this.1
      simpa using this.1
    rcases h with h | h
    · have hfalse : (m.roomId == rid) = false := by
        rw [beq_eq_false_iff_ne, hroom]
        exact fun hh => h hh.symm
      unfold unreadPred
      simp [hfalse]
    · unfold unreadPred
      simp [h]
  · rw [if_neg hm]

theorem trueUnread_map_markMsg (msgs : List Message) (rid u' u R : Nat)
    (h : rid ≠ R ∨ u' ≠ u) :
    trueUnread (msgs.map (markMsg u R)) rid u' = trueUnread msgs rid u' := by
  unfold trueUnread
  rw [List.filter_map, List.length_map]
  congr 1
  apply List.filter_congr
  intro m _
  exact unreadPred_markMsg rid u' u R m h

theorem trueUnread_after_mark (msgs : List Message) (R u : Nat) :
    trueUnread (msgs.map (markMsg u R)) R u = 0 := by
  unfold trueUnread
  rw [List.length_eq_zero, List.filter_eq_nil_iff]
  intro x hx
  rcases List.mem_map.mp hx with ⟨m, _, rfl⟩
  unfold markMsg
  by_cases hm : unreadPred R u m
  · rw [if_pos hm]
    unfold unreadPred
    simp
  · rw [if_neg hm]
    exact fun hh => hm hh

theorem trueUnread_filter_ne (st : ChatState) {mid : Nat} {m : Message}
    (hwf : (st.messages.map Message.id).Nodup) (hfind : findMessage st mid = some m)
    (rid u : Nat) (hrid : m.roomId ≠ rid) :
    trueUnread (st.messages.filter (fun x => x.id != mid)) rid u =
      trueUnread st.messages rid u := by
  obtain ⟨hmem, hid⟩ := findMessage_mem st hfind
  unfold trueUnread
  rw [List.filter_filter]
  congr 1
  apply List.filter_congr
  intro x hx
  by_cases hxid : x.id = mid
  · have hxm : x = m := mem_key_unique Message.id hwf hx hmem (hxid.trans hid.symm)
    subst hxm
    have hp : unreadPred rid u x = false := by
      unfold unreadPred
      simp [hrid]
    simp [hp]
  · simp [hxid]

theorem findRoom_congr (st1 st2 : ChatState) (h : st1.rooms = st2.rooms) (R : Nat) :
    findRoom st1 R = findRoom st2 R := by
  unfold findRoom
  rw [h]

theorem invalidate_room_cache_rooms (st : ChatState) (R : Nat) :
    (invalidate_room_cache st R).rooms = st.rooms :=
  rfl

theorem invalidate_room_cache_messages (st : ChatState) (R : Nat) :
    (invalidate_room_cache st R).messages = st.messages :=
  rfl

theorem invalidate_room_cache_nextId (st : ChatState) (R : Nat) :
    (invalidate_room_cache st R).nextId = st.nextId :=
  rfl

theorem subCache_invalidate_room (st : ChatState) (R : Nat) :
    SubCache (invalidate_room_cache st R).cache st.cache := by
  show SubCache (invalidateRoomCacheVal st R) st.cache
  unfold invalidateRoomCacheVal
  cases findRoom st R with
  | none => exact subCache_deleteList _ _
  | some r => exact subCache_trans (subCache_deleteList _ _) (subCache_deleteList _ _)

theorem invalidate_unread_rooms (st : ChatState) (R : Nat) (uopt : Option Nat) :
    (invalidate_unread_cache st R uopt).rooms = st.rooms :=
  rfl

theorem invalidate_unread_messages (st : ChatState) (R : Nat) (uopt : Option Nat) :
    (invalidate_unread_cache st R uopt).messages = st.messages :=
  rfl

theorem invalidate_unread_nextId (st : ChatState) (R : Nat) (uopt : Option Nat) :
    (invalidate_unread_cache st R uopt).nextId = st.nextId :=
  rfl

theorem subCache_invalidate_unread (st : ChatState) (R : Nat) (uopt : Option Nat) :
    SubCache (invalidate_unread_cache st R uopt).cache st.cache := by
  show SubCache (invalidateUnreadCacheVal st R uopt) st.cache
  unfold invalidateUnreadCacheVal
  cases uopt with
  | none =>
    cases findRoom st R with
    | none => exact subCache_refl _
    | some r => exact subCache_deleteList _ _
  | some uid => exact subCache_deleteList _ _

theorem invalidate_unread_none_get (st : ChatState) (R : Nat) (r : Room) (u : Nat)
    (hfr : findRoom st R = some r) (hu : u = r.userId ∨ u = r.staffId) :
    cacheGet (invalidate_unread_cache st R none).cache (CacheKey.roomUnread R u) = none := by
  show cacheGet (invalidateUnreadCacheVal st R none) _ = none
  unfold invalidateUnreadCacheVal
  rw [hfr]
  apply cacheGet_deleteList_mem
  rcases hu with rfl | rfl <;> simp

theorem invalidate_unread_some_get (st : ChatState) (R u : Nat) :
    cacheGet (invalidate_unread_cache st R (some u)).cache (CacheKey.roomUnread R u) = none := by
  show cacheGet (invalidateUnreadCacheVal st R (some u)) _ = none
  unfold invalidateUnreadCacheVal
  apply cacheGet_deleteList_mem
  simp

theorem touchRoom_messages (st : ChatState) (R n : Nat) :
    (touchRoom st R n).messages = st.messages :=
  rfl

theorem touchRoom_nextId (st : ChatState) (R n : Nat) :
    (touchRoom st R n).nextId = st.nextId :=
  rfl

theorem touchRoom_rooms (st : ChatState) (R n : Nat) :
    (touchRoom st R n).rooms =
      st.rooms.map (fun r => if r.id == R then { r with updatedAt := n } else r) :=
  rfl

theorem subCache_touchRoom (st : ChatState) (R n : Nat) :
    SubCache (touchRoom st R n).cache st.cache := by
  show SubCache (touchRoomCacheVal st R) st.cache
  unfold touchRoomCacheVal
  cases findRoom st R with
  | none => exact subCache_refl _
  | some r => exact subCache_deleteList _ _

theorem createMessage_msg (st : ChatState) (roomId senderId : Nat) (text : Option String)
    (att : Option Nat) (now : Nat) :
    (createMessage st roomId senderId text att now).1 =
      { id := st.nextId, roomId := roomId, senderId := senderId, text := text,
        attachment := att, readBy := [senderId], createdAt := now } :=
  rfl

theorem createMessage_rooms (st : ChatState) (roomId senderId : Nat) (text : Option String)
    (att : Option Nat) (now : Nat) :
    (createMessage st roomId senderId text att now).2.rooms = st.rooms := by
  unfold createMessage
  rw [invalidate_unread_rooms, invalidate_room_cache_rooms]

theorem createMessage_messages (st : ChatState) (roomId senderId : Nat) (text : Option String)
    (att : Option Nat) (now : Nat) :
    (createMessage st roomId senderId text att now).2.messages =
      st.messages ++ [(createMessage st roomId senderId text att now).1] := by
  unfold createMessage
  rw [invalidate_unread_messages, invalidate_room_cache_messages]

theorem createMessage_nextId (st : ChatState) (roomId senderId : Nat) (text : Option String)
    (att : Option Nat) (now : Nat) :
    (createMessage st roomId senderId text att now).2.nextId = st.nextId + 1 := by
  unfold createMessage
  rw [invalidate_unread_nextId, invalidate_room_cache_nextId]

theorem subCache_createMessage (st : ChatState) (roomId senderId : Nat) (text : Option String)
    (att : Option Nat) (now : Nat) :
    SubCache (createMessage st roomId senderId text att now).2.cache st.cache := by
  unfold createMessage
  exact subCache_trans (subCache_invalidate_unread _ _ _) (subCache_invalidate_room _ _)

theorem createMessage_unread_get (st : ChatState) (roomId senderId : Nat) (text : Option String)
    (att : Option Nat) (now : Nat) (r : Room) (u : Nat)
    (hfr : findRoom st roomId = some r) (hu : u = r.userId ∨ u = r.staffId) :
    cacheGet (createMessage st roomId senderId text att now).2.cache
      (CacheKey.roomUnread roomId u) = none := by
  unfold createMessage
  apply invalidate_unread_none_get _ _ r _ _ hu
  rw [findRoom_congr _ st (by rfl) roomId]
  exact hfr

theorem coherentC_set_truth (rooms : List Room) (msgs : List Message) (c : Cache)
    (rid uid : Nat) (h : CoherentC rooms msgs c) :
    CoherentC rooms msgs
      (cacheSet c (CacheKey.roomUnread rid uid) (CacheVal.count (trueUnread msgs rid uid))) := by
  intro r hr u hu v hv
  rw [cacheGet_set] at hv
  by_cases hk : CacheKey.roomUnread r.id u = CacheKey.roomUnread rid uid
  · rw [if_pos hk] at hv
    injection hk with h1 h2
    cases hv
    rw [h1, h2]
  · rw [if_neg hk] at hv
    exact h r hr u hu v hv

theorem coherentC_set_other (rooms : List Room) (msgs : List Message) (c : Cache)
    (k : CacheKey) (v0 : CacheVal) (h : CoherentC rooms msgs c)
    (hk : ∀ rid uid, k ≠ CacheKey.roomUnread rid uid) :
    CoherentC rooms msgs (cacheSet c k v0) := by
  intro r hr u hu v hv
  rw [cacheGet_set] at hv
  rw [if_neg (fun hh => hk r.id u hh.symm)] at hv
  exact h r hr u hu v hv

theorem get_unread_rooms (st : ChatState) (room : Room) (u : Nat) :
    (get_unread_count st room u).2.rooms = st.rooms := by
  unfold get_unread_count
  cases h : cacheGet st.cache (CacheKey.roomUnread room.id u) with
  | none => rfl
  | some v => cases v <;> rfl

theorem get_unread_messages (st : ChatState) (room : Room) (u : Nat) :
    (get_unread_count st room u).2.messages = st.messages := by
  unfold get_unread_count
  cases h : cacheGet st.cache (CacheKey.roomUnread room.id u) with
  | none => rfl
  | some v => cases v <;> rfl

theorem get_unread_nextId (st : ChatState) (room : Room) (u : Nat) :
    (get_unread_count st room u).2.nextId = st.nextId := by
  unfold get_unread_count
  cases h : cacheGet st.cache (CacheKey.roomUnread room.id u) with
  | none => rfl
  | some v => cases v <;> rfl

theorem coherent_get_unread (st : ChatState) (room : Room) (u : Nat) (h : Coherent st) :
    Coherent (get_unread_count st room u).2 := by
  unfold Coherent
  rw [get_unread_rooms, get_unread_messages]
  unfold get_unread_count
  cases hget : cacheGet st.cache (CacheKey.roomUnread room.id u) with
  | none => exact coherentC_set_truth st.rooms st.messages st.cache room.id u h
  | some v =>
    cases v with
    | count n => exact h
    | page p => exact coherentC_set_truth st.rooms st.messages st.cache room.id u h

/-- The inductive invariant carried along every trace: store
well-formedness plus unread-cache coherence for room participants. -/
def Inv (st : ChatState) : Prop :=
  WFState st ∧ Coherent st

theorem coherent_cache_sub (st : ChatState) (c : Cache) (hs : SubCache c st.cache)
    (h : Coherent st) : Coherent { st with cache := c } :=
  coherentC_subCache h hs

theorem inv_invalidate_room (st : ChatState) (R : Nat) (h : Inv st) :
    Inv (invalidate_room_cache st R) :=
  ⟨h.1, coherent_cache_sub st _ (subCache_invalidate_room st R) h.2⟩

theorem inv_invalidate_unread (st : ChatState) (R : Nat) (uopt : Option Nat) (h : Inv st) :
    Inv (invalidate_unread_cache st R uopt) :=
  ⟨h.1, coherent_cache_sub st _ (subCache_invalidate_unread st R uopt) h.2⟩

theorem inv_expire (st : ChatState) (k : CacheKey) (h : Inv st) :
    Inv { st with cache := cacheDelete st.cache k } :=
  ⟨h.1, coherent_cache_sub st _ (subCache_delete st.cache k) h.2⟩

theorem inv_set_other (st : ChatState) (k : CacheKey) (v0 : CacheVal)
    (hk : ∀ rid uid, k ≠ CacheKey.roomUnread rid uid) (h : Inv st) :
    Inv { st with cache := cacheSet st.cache k v0 } :=
  ⟨h.1, coherentC_set_other st.rooms st.messages st.cache k v0 h.2 hk⟩

theorem inv_get_unread (st : ChatState) (room : Room) (u : Nat) (h : Inv st) :
    Inv (get_unread_count st room u).2 := by
  refine ⟨?_, coherent_get_unread st room u h.2⟩
  obtain ⟨h1, h2, h3⟩ := h.1
  refine ⟨?_, ?_, ?_⟩
  · rw [get_unread_rooms]; exact h1
  · rw [get_unread_messages]; exact h2
  · rw [get_unread_messages, get_unread_nextId]; exact h3

theorem wf_createMessage (st : ChatState) (roomId senderId : Nat) (text : Option String)
    (att : Option Nat) (now : Nat) (hwf : WFState st) :
    WFState (createMessage st roomId senderId text att now).2 := by
  obtain ⟨h1, h2, h3⟩ := hwf
  refine ⟨?_, ?_, ?_⟩
  · rw [createMessage_rooms]; exact h1
  · rw [createMessage_messages, createMessage_msg, List.map_append]
    rw [List.nodup_append]
    refine ⟨h2, List.nodup_singleton _, ?_⟩
    intro x hx
    simp only [List.map_cons, List.map_nil, List.mem_singleton]
    rcases List.mem_map.mp hx with ⟨m, hm, rfl⟩
    exact fun hh => absurd (hh ▸ h3 m hm) (lt_irrefl _)
  · intro m hm
    rw [createMessage_nextId]
    rw [createMessage_messages, createMessage_msg] at hm
    rcases List.mem_append.mp hm with hm | hm
    · exact Nat.lt_succ_of_lt (h3 m hm)
    · rw [List.mem_singleton] at hm
      rw [hm]
      exact Nat.lt_succ_self _

theorem coherent_createMessage (st : ChatState) (roomId senderId : Nat) (text : Option String)
    (att : Option Nat) (now : Nat) (hwf : (st.rooms.map Room.id).Nodup) (h : Coherent st) :
    Coherent (createMessage st roomId senderId text att now).2 := by
  unfold Coherent
  rw [createMessage_rooms, createMessage_messages]
  intro r hr u hu v hv
  by_cases hRid : r.id = roomId
  · have hfr : findRoom st roomId = some r := by
      rw [← hRid]
      exact findRoom_mem st hwf hr
    have hnone := createMessage_unread_get st roomId senderId text att now r u hfr hu
    rw [hRid, hnone] at hv
    cases hv
  · have hsub := subCache_createMessage st roomId senderId text att now
    have hold := h r hr u hu v (hsub _ v hv)
    have hroom : (createMessage st roomId senderId text att now).1.roomId ≠ r.id := by
      rw [createMessage_msg]
      exact fun hh => hRid hh.symm
    rw [hold, trueUnread_append_other st.messages _ r.id u hroom]

theorem inv_createMessage (st : ChatState) (roomId senderId : Nat) (text : Option String)
    (att : Option Nat) (now : Nat) (h : Inv st) :
    Inv (createMessage st roomId senderId text att now).2 :=
  ⟨wf_createMessage st roomId senderId text att now h.1,
   coherent_createMessage st roomId senderId text att now h.1.1 h.2⟩

theorem mark_as_read_rooms (st : ChatState) (room : Room) (u : Nat) :
    (mark_as_read st room u).rooms = st.rooms :=
  rfl

theorem mark_as_read_messages (st : ChatState) (room : Room) (u : Nat) :
    (mark_as_read st room u).messages = st.messages.map (markMsg u room.id) :=
  rfl

theorem mark_as_read_nextId (st : ChatState) (room : Room) (u : Nat) :
    (mark_as_read st room u).nextId = st.nextId :=
  rfl

theorem subCache_mark_as_read (st : ChatState) (room : Room) (u : Nat) :
    SubCache (mark_as_read st room u).cache st.cache := by
  unfold mark_as_read
  exact subCache_trans (subCache_invalidate_unread _ _ _) (subCache_invalidate_room _ _)

theorem mark_as_read_unread_get (st : ChatState) (room : Room) (u : Nat) :
    cacheGet (mark_as_read st room u).cache (CacheKey.roomUnread room.id u) = none := by
  unfold mark_as_read
  exact invalidate_unread_some_get _ _ _

theorem wf_mark_as_read (st : ChatState) (room : Room) (u : Nat) (hwf : WFState st) :
    WFState (mark_as_read st room u) := by
  obtain ⟨h1, h2, h3⟩ := hwf
  refine ⟨h1, ?_, ?_⟩
  · rw [mark_as_read_messages, List.map_map]
    have : (Message.id ∘ markMsg u room.id) = Message.id := by
      funext m
      exact markMsg_id u room.id m
    rw [this]
    exact h2
  · intro m hm
    rw [mark_as_read_nextId]
    rw [mark_as_read_messages] at hm
    rcases List.mem_map.mp hm with ⟨m0, hm0, rfl⟩
    rw [markMsg_id]
    exact h3 m0 hm0

theorem coherent_mark_as_read (st : ChatState) (room : Room) (u : Nat) (h : Coherent st) :
    Coherent (mark_as_read st room u) := by
  unfold Coherent
  rw [mark_as_read_rooms, mark_as_read_messages]
  intro r hr u' hu' v hv
  by_cases hcase : r.id = room.id ∧ u' = u
  · rw [hcase.1, hcase.2, mark_as_read_unread_get] at hv
    cases hv
  · have hne : r.id ≠ room.id ∨ u' ≠ u := not_and_or.mp hcase
    have hold := h r hr u' hu' v (subCache_mark_as_read st room u _ v hv)
    rw [hold, trueUnread_map_markMsg st.messages r.id u' u room.id hne]

theorem inv_mark_as_read (st : ChatState) (room : Room) (u : Nat) (h : Inv st) :
    Inv (mark_as_read st room u) :=
  ⟨wf_mark_as_read st room u h.1, coherent_mark_as_read st room u h.2⟩

theorem performDelete_rooms (st : ChatState) (m : Message) (mid : Nat) :
    (performDelete st m mid).rooms = st.rooms :=
  rfl

theorem performDelete_messages (st : ChatState) (m : Message) (mid : Nat) :
    (performDelete st m mid).messages = st.messages.filter (fun x => x.id != mid) :=
  rfl

theorem performDelete_nextId (st : ChatState) (m : Message) (mid : Nat) :
    (performDelete st m mid).nextId = st.nextId :=
  rfl

theorem subCache_performDelete (st : ChatState) (m : Message) (mid : Nat) :
    SubCache (performDelete st m mid).cache st.cache := by
  unfold performDelete
  exact subCache_trans (subCache_invalidate_unread _ _ _) (subCache_invalidate_room _ _)

theorem performDelete_unread_get (st : ChatState) (m : Message) (mid : Nat) (r : Room) (u : Nat)
    (hfr : findRoom st m.roomId = some r) (hu : u = r.userId ∨ u = r.staffId) :
    cacheGet (performDelete st m mid).cache (CacheKey.roomUnread m.roomId u) = none := by
  unfold performDelete
  apply invalidate_unread_none_get _ _ r _ _ hu
  rw [findRoom_congr _ st (by rfl) m.roomId]
  exact hfr

theorem wf_performDelete (st : ChatState) (m : Message) (mid : Nat) (hwf : WFState st) :
    WFState (performDelete st m mid) := by
  obtain ⟨h1, h2, h3⟩ := hwf
  refine ⟨h1, ?_, ?_⟩
  · rw [performDelete_messages]
    exact List.Nodup.sublist (List.Sublist.map _ (List.filter_sublist _)) h2
  · intro x hx
    rw [performDelete_nextId]
    rw [performDelete_messages] at hx
    exact h3 x (List.mem_of_mem_filter hx)

theorem coherent_performDelete (st : ChatState) (m : Message) (mid : Nat)
    (hwfr : (st.rooms.map Room.id).Nodup) (hwfm : (st.messages.map Message.id).Nodup)
    (hfind : findMessage st mid = some m) (h : Coherent st) :
    Coherent (performDelete st m mid) := by
  unfold Coherent
  rw [performDelete_rooms, performDelete_messages]
  intro r hr u hu v hv
  by_cases hRid : r.id = m.roomId
  · have hfr : findRoom st m.roomId = some r := by
      rw [← hRid]
      exact findRoom_mem st hwfr hr
    have hnone := performDelete_unread_get st m mid r u hfr hu
    rw [hRid, hnone] at hv
    cases hv
  · have hold := h r hr u hu v (subCache_performDelete st m mid _ v hv)
    rw [hold, trueUnread_filter_ne st hwfm hfind r.id u (fun hh => hRid hh.symm)]

theorem inv_performDelete (st : ChatState) (m : Message) (mid : Nat)
    (hfind : findMessage st mid = some m) (h : Inv st) :
    Inv (performDelete st m mid) :=
  ⟨wf_performDelete st m mid h.1,
   coherent_performDelete st m mid h.1.1 h.1.2.1 hfind h.2⟩

theorem wf_touchRoom (st : ChatState) (R n : Nat) (hwf : WFState st) :
    WFState (touchRoom st R n) := by
  obtain ⟨h1, h2, h3⟩ := hwf
  refine ⟨?_, h2, h3⟩
  rw [touchRoom_rooms, List.map_map]
  have : (Room.id ∘ fun r => if r.id == R then { r with updatedAt := n } else r) = Room.id := by
    funext r
    by_cases hc : r.id = R <;> simp [hc]
  rw [this]
  exact h1

theorem coherent_touchRoom (st : ChatState) (R n : Nat) (h : Coherent st) :
    Coherent (touchRoom st R n) := by
  unfold Coherent
  rw [touchRoom_rooms, touchRoom_messages]
  intro r hr u hu v hv
  rcases List.mem_map.mp hr with ⟨r0, hr0, rfl⟩
  have hfields : (if r0.id == R then { r0 with updatedAt := n } else r0).id = r0.id ∧
      (if r0.id == R then { r0 with updatedAt := n } else r0).userId = r0.userId ∧
      (if r0.id == R then { r0 with updatedAt := n } else r0).staffId = r0.staffId := by
    by_cases hc : r0.id = R <;> simp [hc]
  rw [hfields.1] at hv
  rw [hfields.2.1, hfields.2.2] at hu
  have hold := h r0 hr0 u hu v (subCache_touchRoom st R n _ v hv)
  rw [hfields.1, hold]

theorem inv_touchRoom (st : ChatState) (R n : Nat) (h : Inv st) :
    Inv (touchRoom st R n) :=
  ⟨wf_touchRoom st R n h.1, coherent_touchRoom st R n h.2⟩

theorem inv_serializeRooms (rooms : List Room) (st : ChatState) (u : Nat) (h : Inv st) :
    Inv (serializeRoomsState st u rooms) := by
  induction rooms generalizing st with
  | nil => exact h
  | cons r t ih => exact ih ((get_unread_count st r u).2) (inv_get_unread st r u h)

theorem inv_save_message (st : ChatState) (roomId senderId : Nat) (text : Option String)
    (now : Nat) (h : Inv st) : Inv (save_message st roomId senderId text now).2 := by
  simp only [save_message]
  cases hfr : findRoom st roomId with
  | none => exact h
  | some r =>
    exact inv_invalidate_room _ _ (inv_createMessage st roomId senderId text none now h)

theorem inv_mark_room_as_read (st : ChatState) (roomId u : Nat) (h : Inv st) :
    Inv (mark_room_as_read st roomId u).2 := by
  simp only [mark_room_as_read]
  cases hfr : findRoom st roomId with
  | some r => exact inv_mark_as_read st r u h
  | none => exact h

theorem inv_ws_receive (st : ChatState) (selfUser : UserRec) (roomId : Nat)
    (msg : WsIncoming) (now : Nat) (h : Inv st) :
    Inv (ws_receive_json st selfUser roomId msg now).2 := by
  cases msg with
  | send text =>
    simp only [ws_receive_json]
    split
    · exact h
    · split
      · rename_i m st1 heq
        have hs := inv_save_message st roomId selfUser.userId
          (some (pyStrip (text.getD emptyStr))) now h
        rw [heq] at hs
        exact hs
      · rename_i st1 heq
        have hs := inv_save_message st roomId selfUser.userId
          (some (pyStrip (text.getD emptyStr))) now h
        rw [heq] at hs
        exact hs
  | markRead =>
    simp only [ws_receive_json]
    split
    · exact inv_mark_room_as_read st roomId selfUser.userId h
    · exact inv_mark_room_as_read st roomId selfUser.userId h
  | typing t => exact h
  | unknown => exact h

theorem inv_rest_send (st : ChatState) (user : UserRec) (roomIdOpt : Option Nat)
    (text : Option String) (att : Option Nat) (now : Nat) (h : Inv st) :
    Inv (rest_send_message st user roomIdOpt text att now).2.2 := by
  cases roomIdOpt with
  | none => exact h
  | some roomId =>
    simp only [rest_send_message]
    repeat' split
    any_goals exact h
    exact inv_invalidate_unread (touchRoom (createMessage st roomId user.userId
      text none now).2 roomId now) roomId none
      (inv_touchRoom (createMessage st roomId user.userId text none now).2 roomId now
        (inv_createMessage st roomId user.userId text none now h))

theorem inv_rest_mark_read (st : ChatState) (user : UserRec) (roomIdOpt : Option Nat)
    (h : Inv st) : Inv (rest_mark_read st user roomIdOpt).2.2 := by
  cases roomIdOpt with
  | none => exact h
  | some roomId =>
    simp only [rest_mark_read]
    repeat' split
    any_goals exact h
    rename_i r heq hperm
    exact inv_mark_as_read st r user.userId h

theorem inv_delete_message (st : ChatState) (user : UserRec) (msgId : Nat) (h : Inv st) :
    Inv (delete_message st user msgId).2.2 := by
  simp only [delete_message]
  repeat' split
  any_goals exact h
  rename_i m heq hsender
  exact inv_performDelete st m msgId heq h

theorem inv_list_messages (st : ChatState) (user : UserRec) (roomId page ps : Nat)
    (h : Inv st) : Inv (list_messages st user roomId page ps).2 := by
  simp only [list_messages]
  repeat' split
  any_goals exact h
  all_goals refine inv_set_other st _ _ ?_ h
  all_goals intro rid uid hh
  all_goals exact CacheKey.noConfusion hh

theorem inv_list_rooms (st : ChatState) (user : UserRec) (page ps : Nat) (h : Inv st) :
    Inv (list_rooms st user page ps).2 := by
  simp only [list_rooms]
  repeat' split
  any_goals exact h
  any_goals exact inv_serializeRooms _ st user.userId h
  any_goals refine inv_set_other st _ _ ?_ h
  any_goals refine inv_set_other _ _ _ ?_ (inv_serializeRooms _ st user.userId h)
  all_goals intro rid uid hh
  all_goals exact CacheKey.noConfusion hh

theorem inv_room_unread (st : ChatState) (user : UserRec) (roomId : Nat) (h : Inv st) :
    Inv (room_unread_endpoint st user roomId).2 := by
  simp only [room_unread_endpoint]
  repeat' split
  any_goals exact h
  rename_i r heq hperm
  exact inv_get_unread st r user.userId h

theorem inv_totalFold (rooms : List Room) (u : Nat) (acc : Nat) (st : ChatState) (h : Inv st) :
    Inv (rooms.foldl (fun (p : Nat × ChatState) r =>
      let q := get_unread_count p.2 r u
      (p.1 + q.1, q.2)) (acc, st)).2 := by
  induction rooms generalizing st acc with
  | nil => exact h
  | cons r t ih => exact ih _ _ (inv_get_unread st r u h)

theorem inv_total_unread (st : ChatState) (user : UserRec) (h : Inv st) :
    Inv (total_unread_endpoint st user).2 := by
  simp only [total_unread_endpoint]
  repeat' split
  any_goals exact h
  all_goals refine inv_set_other _ _ _ ?_ (inv_totalFold _ user.userId 0 st h)
  all_goals intro rid uid hh
  all_goals exact CacheKey.noConfusion hh

theorem inv_applyOp (st : ChatState) (op : Op) (h : Inv st) : Inv (applyOp st op) := by
  cases op with
  | wsSend u roomId text now => exact inv_ws_receive st u roomId (WsIncoming.send text) now h
  | wsMarkRead u roomId => exact inv_ws_receive st u roomId WsIncoming.markRead 0 h
  | restSend u rid text att now => exact inv_rest_send st u rid text att now h
  | restMarkRead u rid => exact inv_rest_mark_read st u rid h
  | restDelete u mid => exact inv_delete_message st u mid h
  | listMsgs u rid page ps => exact inv_list_messages st u rid page ps h
  | listRoomsOp u page ps => exact inv_list_rooms st u page ps h
  | roomUnreadOp u rid => exact inv_room_unread st u rid h
  | totalUnreadOp u => exact inv_total_unread st u h
  | expire k => exact inv_expire st k h

theorem coherent_of_empty_cache (st : ChatState) (hc : st.cache = []) : Coherent st := by
  intro r hr u hu v hv
  rw [hc] at hv
  simp [cacheGet] at hv

/-- Every reachable state of the chat subsystem is well-formed and has
coherent participant unread counters. -/
theorem reachable_inv (st : ChatState) (h : Reachable st) : Inv st := by
  induction h with
  | init st hwf hc => exact ⟨hwf, coherent_of_empty_cache st hc⟩
  | step st op h ih => exact inv_applyOp st op ih

/-! Concrete fixtures used by witnesses and counterexamples: one room
between regular user 1 and staff user 2, plus a third staff member. -/

def hiText : String := "hi"

def roomA : Room := { id := 1, userId := 1, staffId := 2, updatedAt := 0 }

def userReg : UserRec := { userId := 1, isStaff := false, isActive := true }

def userStaffB : UserRec := { userId := 2, isStaff := true, isActive := true }

def userStaff3 : UserRec := { userId := 3, isStaff := true, isActive := true }

def st0 : ChatState := { rooms := [roomA], messages := [], cache := [], nextId := 1 }

theorem reachable_st0 : Reachable st0 := by
  refine Reachable.init st0 ?_ rfl
  unfold WFState
  refine ⟨?_, ?_, ?_⟩ <;> decide

/-- The state after staff member 3 (not a participant of room 1) reads
the unread counter of room 1, caching it. -/
def c1StA : ChatState := (room_unread_endpoint st0 userStaff3 1).2

/-- State after user 1 then sends a message in room 1 over REST. -/
def c1StB : ChatState := (rest_send_message c1StA userReg (some 1) (some hiText) none 5).2.2

theorem reachable_c1StB : Reachable c1StB :=
  Reachable.step c1StA (Op.restSend userReg (some 1) (some hiText) none 5)
    (Reachable.step st0 (Op.roomUnreadOp userStaff3 1) reachable_st0)

/-- Claim C1 is false as stated: it quantifies over every user u, but
the unread counter cached for a non-participant staff user (readable
through RoomUnreadCountAPIView, whose permission check admits any
staff member) is not among the keys invalidate_unread_cache deletes
when a message is created, so after the send the cached counter for
user 3 still reads 0 while the true count is 1. -/
theorem C1_counterexample :
    Reachable c1StB ∧ (get_unread_count c1StB roomA 3).1 = 0 ∧
      trueUnread c1StB.messages roomA.id 3 = 1 := by
  refine ⟨reachable_c1StB, ?_, ?_⟩ <;> decide

/-- Claim C1 (amended): in every reachable state, for each room r and
each u that is one of the two participants of the room, unread_count(r, u)
equals the number of messages in r whose sender is not u and whose
read-set does not contain u; and for every user u, immediately after
mark_all_read(r, u), unread_count(r, u) = 0. -/
theorem C1_amended (st : ChatState) (h : Reachable st) (r : Room) (hr : r ∈ st.rooms)
    (u : Nat) :
    ((u = r.userId ∨ u = r.staffId) →
      (get_unread_count st r u).1 = trueUnread st.messages r.id u) ∧
    (get_unread_count (mark_as_read st r u) r u).1 = 0 := by
  constructor
  · intro hu
    have hC := (reachable_inv st h).2
    unfold get_unread_count
    cases hget : cacheGet st.cache (CacheKey.roomUnread r.id u) with
    | none => rfl
    | some v =>
      cases v with
      | count n =>
        have hv := hC r hr u hu _ hget
        simpa using hv
      | page p => rfl
  · have hkey := mark_as_read_unread_get st r u
    unfold get_unread_count
    rw [hkey]
    show trueUnread (mark_as_read st r u).messages r.id u = 0
    rw [mark_as_read_messages]
    exact trueUnread_after_mark st.messages r.id u

/-- Witness for C1_amended at the concrete initial state. -/
theorem C1_amended_witness :
    (get_unread_count st0 roomA 1).1 = trueUnread st0.messages roomA.id 1 ∧
      (get_unread_count (mark_as_read st0 roomA 1) roomA 1).1 = 0 := by
  have hm : roomA ∈ st0.rooms := by decide
  have hc := C1_amended st0 reachable_st0 roomA hm 1
  exact ⟨hc.1 (by decide), hc.2⟩

def tokText : String := "tok"

def userOutsider : UserRec := { userId := 7, isStaff := false, isActive := true }

/-- Claim C5 fails on the Connection Gateway path.  consumers.save_message
runs ChatRoom.objects.filter(id=room_id).update() WITH NO FIELD VALUES,
which does not modify the row, so the auto_now updated_at does not
advance; the REST path (room.save(update_fields)) does advance it.
At the concrete input: the room starts with updated-at 0, a gateway
send at instant 5 persists the message (first conjunct) yet leaves the
room rows, and in particular updated-at, unchanged (second and third
conjuncts), while the same send over REST sets updated-at to 5. -/
theorem C5_gateway_send_does_not_advance_updated_at :
    ((save_message st0 1 1 (some hiText) 5).1.isSome = true) ∧
    (∀ (st : ChatState) (roomId senderId : Nat) (text : Option String) (now : Nat),
      (save_message st roomId senderId text now).2.rooms = st.rooms) ∧
    findRoom (save_message st0 1 1 (some hiText) 5).2 1 = some roomA ∧
    roomA.updatedAt = 0 ∧
    findRoom (rest_send_message st0 userReg (some 1) (some hiText) none 5).2.2 1 =
      some { roomA with updatedAt := 5 } := by
  refine ⟨by decide, ?_, by decide, by decide, by decide⟩
  intro st roomId senderId text now
  unfold save_message
  cases hfr : findRoom st roomId with
  | none => rfl
  | some r =>
    show (invalidate_room_cache (createMessage st roomId senderId text none now).2
      roomId).rooms = st.rooms
    rw [invalidate_room_cache_rooms, createMessage_rooms]

/-- Claim C6: the read-set of a newly created message contains its sender,
both on the gateway path (consumers.save_message) and on the REST path
(SendMessageAPIView through MessageSerializer and Message.save). -/
theorem C6_sender_in_read_set (st : ChatState) (roomId senderId : Nat) (user : UserRec)
    (text : Option String) (att : Option Nat) (now : Nat) (m : Message) :
    ((save_message st roomId senderId text now).1 = some m → senderId ∈ m.readBy) ∧
    ((rest_send_message st user (some roomId) text att now).1 = SendResult.created m →
      user.userId ∈ m.readBy) := by
  constructor
  · intro hsome
    simp only [save_message] at hsome
    cases hfr : findRoom st roomId with
    | none =>
      rw [hfr] at hsome
      exact Option.noConfusion hsome
    | some r =>
      simp only [hfr, Option.some.injEq] at hsome
      rw [← hsome, createMessage_msg]
      simp
  · intro hcreated
    simp only [rest_send_message] at hcreated
    cases hfr : findRoom st roomId with
    | none =>
      simp only [hfr] at hcreated
      exact SendResult.noConfusion hcreated
    | some r =>
      simp only [hfr] at hcreated
      split at hcreated
      · exact SendResult.noConfusion hcreated
      · split at hcreated
        · exact SendResult.noConfusion hcreated
        · simp only [SendResult.created.injEq] at hcreated
          rw [← hcreated, createMessage_msg]
          simp

def c6WsMsg : Message :=
  { id := 1, roomId := 1, senderId := 1, text := some hiText, attachment := none,
    readBy := [1], createdAt := 5 }

def c6RestMsg : Message :=
  { id := 1, roomId := 1, senderId := 2, text := some hiText, attachment := none,
    readBy := [2], createdAt := 5 }

/-- Witness for C6 on both paths at concrete inputs. -/
theorem C6_witness : (1 : Nat) ∈ c6WsMsg.readBy ∧ (2 : Nat) ∈ c6RestMsg.readBy :=
  ⟨(C6_sender_in_read_set st0 1 1 userStaffB (some hiText) none 5 c6WsMsg).1 (by decide),
   (C6_sender_in_read_set st0 1 2 userStaffB (some hiText) none 5 c6RestMsg).2 (by decide)⟩

/-- Claim C8: a connection attempt by an authenticated, active identity
that is neither staff nor one of the two participants of the room always
closes with the forbidden code 4003 on the permission branch and is
never accepted (never joined to the broadcast group), whatever the
token string contains. -/
theorem C8_nonparticipant_rejected (auth : String → Option UserRec) (st : ChatState)
    (t : String) (roomId : Nat) (user : UserRec) (room : Room)
    (hauth : auth t = some user) (hactive : user.isActive = true)
    (hstaff : user.isStaff = false) (hroom : findRoom st roomId = some room)
    (hnotu : room.userId ≠ user.userId) (hnots : room.staffId ≠ user.userId) :
    ws_connect auth st (some t) roomId = ConnectResult.close 4003 ∧
    ∀ g e, ws_connect auth st (some t) roomId ≠ ConnectResult.accepted g e := by
  have hmain : ws_connect auth st (some t) roomId = ConnectResult.close 4003 := by
    simp only [ws_connect, hauth, hroom, hactive, hstaff]
    simp [hnotu, hnots]
  refine ⟨hmain, ?_⟩
  intro g e hacc
  rw [hmain] at hacc
  exact ConnectResult.noConfusion hacc

/-- Witness for C8: user 7 is active, not staff, and not a participant
of room 1; the handshake closes with 4003. -/
theorem C8_witness :
    ws_connect (fun _ => some userOutsider) st0 (some tokText) 1 =
      ConnectResult.close 4003 :=
  (C8_nonparticipant_rejected (fun _ => some userOutsider) st0 tokText 1 userOutsider roomA
    rfl (by decide) (by decide) (by decide) (by decide) (by decide)).1

/-- Claim C10: a mark_read action on the websocket for an absent room
is a silent no-op (mark_room_as_read returns False, so no messages.read
event is published, no error event is sent, the state is unchanged and
receive_json never closes the connection), while the REST mark-read
endpoint answers 404 for the same room and changes nothing. -/
theorem C10_mark_read_absent_room (st : ChatState) (selfUser user : UserRec) (roomId : Nat)
    (h : findRoom st roomId = none) :
    ws_receive_json st selfUser roomId WsIncoming.markRead 0 = ([], st) ∧
    (rest_mark_read st user (some roomId)).1 = MarkReadResult.notFound ∧
    (rest_mark_read st user (some roomId)).2.1 = [] ∧
    (rest_mark_read st user (some roomId)).2.2 = st := by
  refine ⟨?_, ?_, ?_, ?_⟩
  · simp [ws_receive_json, mark_room_as_read, h]
  · simp only [rest_mark_read, h]
  · simp only [rest_mark_read, h]
  · simp only [rest_mark_read, h]

/-- Witness for C10 at room 99, which does not exist in st0. -/
theorem C10_witness :
    ws_receive_json st0 userReg 99 WsIncoming.markRead 0 = ([], st0) ∧
    (rest_mark_read st0 userReg (some 99)).1 = MarkReadResult.notFound := by
  have h := C10_mark_read_absent_room st0 userReg userReg 99 (by decide)
  exact ⟨h.1, h.2.1⟩

/-- State with one message (id 1) sent by user 1 in room 1. -/
def c2St : ChatState := (rest_send_message st0 userReg (some 1) (some hiText) none 5).2.2

/-- Claim C2 evaluated at the failing input.  The permission half holds
(staff 2 gets forbidden and the state is unchanged; the sender gets ok
and the message disappears from the room listing), but the broadcast
half fails: the view publishes a group event of type message.deleted,
and ChatConsumer has no message_deleted handler, so chatConsumerDispatch
delivers nothing to any connected client: no connection receives a
deletion event. -/
theorem C2_deletion_event_never_delivered :
    Reachable c2St ∧
    (delete_message c2St userStaffB 1).1 = DeleteResult.forbidden ∧
    (delete_message c2St userStaffB 1).2.2 = c2St ∧
    (delete_message c2St userReg 1).1 = DeleteResult.ok ∧
    (delete_message c2St userReg 1).2.1 = [GroupEvent.messageDeleted 1 1] ∧
    (∀ uid : Nat, chatConsumerDispatch uid (GroupEvent.messageDeleted 1 1) = none) ∧
    (list_messages (delete_message c2St userReg 1).2.2 userReg 1 1 50).1 =
      ListResult.ok { count := 0, next := none, previous := none, results := [] } := by
  refine ⟨?_, by decide, by decide, by decide, by decide, fun uid => rfl, by decide⟩
  exact Reachable.step st0 (Op.restSend userReg (some 1) (some hiText) none 5) reachable_st0

/-- State where user 1 has listed their rooms, caching the first page
of the room list under chat:rooms:user:1:page:1. -/
def c4St1 : ChatState := (list_rooms st0 userReg 1 50).2

/-- State after staff 2 has then sent a message in room 1 over REST, which
fires both the message_saved and the room_saved invalidation paths. -/
def c4St2 : ChatState := (rest_send_message c4St1 userStaffB (some 1) (some hiText) none 7).2.2

/-- Claim C4 evaluated at the failing input.  The room-list page for
user 1 is stored under the key chat:rooms:user:1:page:1 (second
conjunct), but every invalidation path (invalidate_room_cache,
room_saved, the get-or-create view) deletes only chat:rooms:user:U,
a key under which nothing is ever stored (fourth conjunct), so the
entry survives a message creation plus a room save in a room of that user
(third conjunct) and the next page-1 listing is served from the stale
entry (fifth conjunct). -/
theorem C4_room_list_key_never_deleted :
    Reachable c4St2 ∧
    cacheGet c4St1.cache (CacheKey.roomsUserPage 1 1) =
      some (CacheVal.page { count := 1, next := none, previous := none, results := [1] }) ∧
    cacheGet c4St2.cache (CacheKey.roomsUserPage 1 1) =
      some (CacheVal.page { count := 1, next := none, previous := none, results := [1] }) ∧
    cacheGet c4St1.cache (CacheKey.roomsUser 1) = none ∧
    (list_rooms c4St2 userReg 1 50).2 = c4St2 := by
  refine ⟨?_, by decide, by decide, by decide, by decide⟩
  exact Reachable.step c4St1 (Op.restSend userStaffB (some 1) (some hiText) none 7)
    (Reachable.step st0 (Op.listRoomsOp userReg 1 50) reachable_st0)

/-- Claim C9 is false: an invalid credential (auth fails) and a
forbidden identity (active non-staff non-participant) close with the
same code 4003, so a client cannot tell those causes apart from the
close code alone. -/
theorem C9_counterexample :
    ws_connect (fun _ => none) st0 (some tokText) 1 = ConnectResult.close 4003 ∧
    ws_connect (fun _ => some userOutsider) st0 (some tokText) 1 =
      ConnectResult.close 4003 := by
  constructor <;> rfl

/-- Claim C9 (amended): the handshake closes with 4001 on a missing
credential, 4003 on a credential that does not resolve to a user, 4003
on an inactive identity, 4004 on a missing room, and 4003 on a
non-participant non-staff identity; 4001, 4003 and 4004 are pairwise
distinct, so missing_credential and room_not_found are each
distinguishable from every other cause, while invalid/expired
credential, inactive identity and forbidden share one code and are
mutually indistinguishable. -/
theorem C9_amended (auth : String → Option UserRec) (st : ChatState) (t : String)
    (roomId : Nat) :
    (ws_connect auth st none roomId = ConnectResult.close 4001) ∧
    (auth t = none → ws_connect auth st (some t) roomId = ConnectResult.close 4003) ∧
    (∀ user, auth t = some user → user.isActive = false →
      ws_connect auth st (some t) roomId = ConnectResult.close 4003) ∧
    (∀ user, auth t = some user → user.isActive = true → findRoom st roomId = none →
      ws_connect auth st (some t) roomId = ConnectResult.close 4004) ∧
    (∀ user room, auth t = some user → user.isActive = true → user.isStaff = false →
      findRoom st roomId = some room → room.userId ≠ user.userId →
      room.staffId ≠ user.userId →
      ws_connect auth st (some t) roomId = ConnectResult.close 4003) ∧
    (ConnectResult.close 4001 ≠ ConnectResult.close 4003 ∧
      ConnectResult.close 4001 ≠ ConnectResult.close 4004 ∧
      ConnectResult.close 4003 ≠ ConnectResult.close 4004) := by
  refine ⟨rfl, ?_, ?_, ?_, ?_, by decide, by decide, by decide⟩
  · intro hnone
    simp [ws_connect, hnone]
  · intro user hsome hinactive
    simp [ws_connect, hsome, hinactive]
  · intro user hsome hactive hroom
    simp [ws_connect, hsome, hactive, hroom]
  · intro user room hsome hactive hstaff hroom hnotu hnots
    simp [ws_connect, hsome, hactive, hstaff, hroom, hnotu, hnots]

/-- Witness for C9_amended: each handshake failure cause exercised at
a concrete input, producing the codes 4001 / 4003 / 4003 / 4004 /
4003. -/
theorem C9_amended_witness :
    ws_connect (fun _ => some userOutsider) st0 none 1 = ConnectResult.close 4001 ∧
    ws_connect (fun _ => none) st0 (some tokText) 1 = ConnectResult.close 4003 ∧
    ws_connect (fun _ => some { userOutsider with isActive := false }) st0 (some tokText) 1 =
      ConnectResult.close 4003 ∧
    ws_connect (fun _ => some userOutsider) st0 (some tokText) 99 =
      ConnectResult.close 4004 ∧
    ws_connect (fun _ => some userOutsider) st0 (some tokText) 1 =
      ConnectResult.close 4003 := by
  refine ⟨(C9_amended (fun _ => some userOutsider) st0 tokText 1).1, ?_, ?_, ?_, ?_⟩
  · exact (C9_amended (fun _ => none) st0 tokText 1).2.1 rfl
  · exact (C9_amended (fun _ => some { userOutsider with isActive := false }) st0 tokText
      1).2.2.1 _ rfl (by decide)
  · exact (C9_amended (fun _ => some userOutsider) st0 tokText 99).2.2.2.1 _ rfl
      (by decide) (by decide)
  · exact (C9_amended (fun _ => some userOutsider) st0 tokText 1).2.2.2.2.1 _ roomA rfl
      (by decide) (by decide) (by decide) (by decide) (by decide)

theorem subCache_none {c' c : Cache} (hs : SubCache c' c) (k : CacheKey)
    (h : cacheGet c k = none) : cacheGet c' k = none := by
  cases hget : cacheGet c' k with
  | none => rfl
  | some v =>
    rw [hs k v hget] at h
    exact Option.noConfusion h

theorem mem_msgPageKeys (roomId p : Nat) (h1 : 1 ≤ p) (h19 : p ≤ 19) :
    CacheKey.roomMessagesPage roomId p ∈ msgPageKeys roomId := by
  unfold msgPageKeys
  rw [List.mem_map]
  refine ⟨p - 1, ?_, ?_⟩
  · rw [List.mem_range]
    omega
  · rw [Nat.sub_add_cancel h1]

theorem invalidate_room_page_get (st : ChatState) (roomId p : Nat)
    (h1 : 1 ≤ p) (h19 : p ≤ 19) :
    cacheGet (invalidate_room_cache st roomId).cache
      (CacheKey.roomMessagesPage roomId p) = none := by
  show cacheGet (invalidateRoomCacheVal st roomId) _ = none
  unfold invalidateRoomCacheVal
  cases findRoom st roomId with
  | none => exact cacheGet_deleteList_mem _ _ _ (mem_msgPageKeys roomId p h1 h19)
  | some r =>
    exact subCache_none (subCache_deleteList _ _) _
      (cacheGet_deleteList_mem _ _ _ (mem_msgPageKeys roomId p h1 h19))

theorem createMessage_page_get (st : ChatState) (roomId senderId : Nat)
    (text : Option String) (att : Option Nat) (now p : Nat) (h1 : 1 ≤ p) (h19 : p ≤ 19) :
    cacheGet (createMessage st roomId senderId text att now).2.cache
      (CacheKey.roomMessagesPage roomId p) = none := by
  unfold createMessage
  exact subCache_none (subCache_invalidate_unread _ _ _) _
    (invalidate_room_page_get _ roomId p h1 h19)

/-- Claim C3 (amended): after a message is created in room r — on the
gateway path (consumers.save_message) or the REST path
(SendMessageAPIView) — the cached entry for every page p with
1 ≤ p ≤ 19 of the message history of r has been deleted, so the next read
of such a page is a cache miss; pages 20 and beyond are outside
range(1, 20) in invalidate_room_cache and stay cached until TTL. -/
theorem C3_amended (st : ChatState) (user : UserRec) (roomId senderId : Nat)
    (text : Option String) (att : Option Nat) (now p : Nat) (m : Message)
    (h1 : 1 ≤ p) (h19 : p ≤ 19) :
    ((save_message st roomId senderId text now).1 = some m →
      cacheGet (save_message st roomId senderId text now).2.cache
        (CacheKey.roomMessagesPage roomId p) = none) ∧
    ((rest_send_message st user (some roomId) text att now).1 = SendResult.created m →
      cacheGet (rest_send_message st user (some roomId) text att now).2.2.cache
        (CacheKey.roomMessagesPage roomId p) = none) := by
  constructor
  · intro hsome
    simp only [save_message] at hsome ⊢
    cases hfr : findRoom st roomId with
    | none =>
      simp only [hfr] at hsome
      exact Option.noConfusion hsome
    | some r =>
      simp only [hfr]
      exact invalidate_room_page_get _ roomId p h1 h19
  · intro hcreated
    simp only [rest_send_message] at hcreated ⊢
    cases hfr : findRoom st roomId with
    | none =>
      simp only [hfr] at hcreated
      exact SendResult.noConfusion hcreated
    | some r =>
      simp only [hfr] at hcreated ⊢
      split at hcreated
      · exact SendResult.noConfusion hcreated
      · split at hcreated
        · exact SendResult.noConfusion hcreated
        · rename_i hperm hvalid
          simp only [if_neg hperm, if_neg hvalid]
          refine subCache_none (subCache_invalidate_unread _ _ _) _ ?_
          refine subCache_none (subCache_touchRoom _ _ _) _ ?_
          exact createMessage_page_get st roomId user.userId text none now p h1 h19

/-- Witness for C3_amended: after user 1 sends in room 1 on each path,
page 1 of the room history is a cache miss. -/
theorem C3_amended_witness :
    cacheGet (save_message st0 1 1 (some hiText) 5).2.cache
      (CacheKey.roomMessagesPage 1 1) = none ∧
    cacheGet (rest_send_message st0 userReg (some 1) (some hiText) none 5).2.2.cache
      (CacheKey.roomMessagesPage 1 1) = none := by
  have h := C3_amended st0 userReg 1 1 (some hiText) none 5 1 c6WsMsg (by decide) (by decide)
  exact ⟨h.1 (by decide), h.2 (by decide)⟩

/-- Twenty messages from user 1 in room 1, ids 1 through 20. -/
def c3Msg (i : Nat) : Message :=
  { id := i + 1, roomId := 1, senderId := 1, text := some hiText, attachment := none,
    readBy := [1], createdAt := i }

def c3St0 : ChatState :=
  { rooms := [roomA], messages := (List.range 20).map c3Msg, cache := [], nextId := 21 }

/-- Page 20 (page size 1) of room 1 has been read and cached. -/
def c3St1 : ChatState := (list_messages c3St0 userReg 1 20 1).2

/-- State after a new message (id 21) has then been created in room 1. -/
def c3St2 : ChatState := (rest_send_message c3St1 userReg (some 1) (some hiText) none 30).2.2

/-- Claim C3 is false for pages beyond 19: invalidate_room_cache only
deletes pages range(1, 20).  At the concrete input, page 20 is cached
before the write (second conjunct), the read after the write is a
cache hit returning the identical pre-write payload (third and fourth
conjuncts), yet a fresh computation of page 20 over the post-write
messages differs (fifth conjunct): the cached payload does not reflect
the new message and is not a miss. -/
theorem C3_counterexample :
    Reachable c3St2 ∧
    (list_messages c3St0 userReg 1 20 1).1 =
      ListResult.ok { count := 20, next := none, previous := some 19, results := [1] } ∧
    cacheGet c3St2.cache (CacheKey.roomMessagesPage 1 20) =
      some (CacheVal.page { count := 20, next := none, previous := some 19, results := [1] }) ∧
    (list_messages c3St2 userReg 1 20 1).1 =
      ListResult.ok { count := 20, next := none, previous := some 19, results := [1] } ∧
    pageSlice ((roomMessagesDesc c3St2 1).map Message.id) 20 1 = [2] ∧
    (roomMessagesDesc c3St2 1).length = 21 := by
  refine ⟨?_, by decide, by decide, by decide, by decide, by decide⟩
  refine Reachable.step c3St1 (Op.restSend userReg (some 1) (some hiText) none 30) ?_
  refine Reachable.step c3St0 (Op.listMsgs userReg 1 20 1) ?_
  refine Reachable.init c3St0 ?_ rfl
  unfold WFState
  refine ⟨?_, ?_, ?_⟩ <;> decide

/-- The row actually persisted by the oversize-attachment request of
the C7 failing input: text saved, attachment dropped. -/
def c7Msg : Message :=
  { id := 1, roomId := 1, senderId := 1, text := some hiText, attachment := none,
    readBy := [1], createdAt := 5 }

/-- Claim C7 evaluated at the failing input.  Because attachment is
not declared in MessageSerializer.Meta.fields, the upload never
reaches validate(): a POST by user 1 in room 1 with non-empty text and
a 16 MB attachment returns 201 and persists a row (with the attachment
silently dropped) — first and second conjuncts — although the size
check as written in the source would have rejected it (third
conjunct).  The still-true parts of the claim are evaluated too: a
request with neither text nor attachment is a 400 with the state
unchanged (fourth and fifth conjuncts), and a websocket send whose
text is empty is answered by an error event to that client with no
state change and no close — WsEffect has no close constructor (sixth
conjunct). -/
theorem C7_oversize_attachment_accepted :
    (rest_send_message st0 userReg (some 1) (some hiText) (some (16 * 1024 * 1024)) 5).1 =
      SendResult.created c7Msg ∧
    (rest_send_message st0 userReg (some 1) (some hiText)
      (some (16 * 1024 * 1024)) 5).2.2.messages.length = 1 ∧
    messageSerializerValidate (some hiText) (some (16 * 1024 * 1024)) = false ∧
    (rest_send_message st0 userReg (some 1) none none 5).1 = SendResult.badRequest ∧
    (rest_send_message st0 userReg (some 1) none none 5).2.2 = st0 ∧
    ws_receive_json st0 userReg 1 (WsIncoming.send none) 5 =
      ([WsEffect.errorToClient], st0) := by
  refine ⟨?_, ?_, ?_, ?_, ?_, ?_⟩ <;> decide

end ChatSpec
